import Mathlib

/-!
Verification of the client-side realtime synchronization and incremental
cache layer of the SOF texture-sharing site: the Change-Merge Engine
(mergeRealtimeChange), the Subscription Manager debounce and reconnect
logic (useRealtimeSubscription), the Preload/Cache Coordinator
(fetchAllTextures / cancelPreload) and the View Composer
(filteredTextures / sortedPacks / visibleTextures / loadMore) of
BrowseTextures.tsx.
-/

namespace SOF

/-! Generic records

The merge engine and the preload coordinator work on generic rows
(TypeScript constraint is an object extending `id : string`).  We model a
row as an identity plus an association list of the remaining fields, so
that the JavaScript object-spread shallow merge is expressible. -/

structure Rec where
  id : String
  fields : List (String × Int)
deriving DecidableEq, Repr

/-- First value bound to key `k` in an association list (JS property read). -/
def lookupField (fs : List (String × Int)) (k : String) : Option Int :=
  (fs.find? (fun p => p.1 = k)).map Prod.snd

/-- JS object spread of fields: keys of `old` keep their order with values
overridden by `new`, keys only in `new` are appended. -/
def spreadFields (old new : List (String × Int)) : List (String × Int) :=
  old.map (fun p => (p.1, (lookupField new p.1).getD p.2)) ++
    new.filter (fun p => lookupField old p.1 = none)

/-- The object spread of two whole records, as in the UPDATE
case of the merge engine. -/
def spreadMerge (old new : Rec) : Rec :=
  ⟨new.id, spreadFields old.fields new.fields⟩

inductive RealtimeEvent
  | INSERT
  | UPDATE
  | DELETE
deriving DecidableEq, Repr

/-- Embedding of mergeRealtimeChange from src/unnamed/part_007 lines 88-122:
null base returns null; INSERT appends unless a record with the same id
exists; UPDATE maps the matching record to the spread merge; DELETE filters
the matching record out; a missing payload makes the event a no-op. -/
def mergeRealtimeChange (current : Option (List Rec)) (eventType : RealtimeEvent)
    (newRecord : Option Rec) (oldRecord : Option Rec) : Option (List Rec) :=
  match current with
  | none => none
  | some cur =>
    some <|
      match eventType with
      | .INSERT =>
        match newRecord with
        | some nr =>
          if cur.any (fun item => item.id = nr.id) then cur else cur ++ [nr]
        | none => cur
      | .UPDATE =>
        match newRecord with
        | some nr =>
          cur.map (fun item => if item.id = nr.id then spreadMerge item nr else item)
        | none => cur
      | .DELETE =>
        match oldRecord with
        | some o => cur.filter (fun item => item.id ≠ o.id)
        | none => cur

/-! Helper lemmas about the merge engine -/

theorem mergeRealtimeChange_none (e : RealtimeEvent) (nr o : Option Rec) :
    mergeRealtimeChange none e nr o = none := rfl

theorem mergeInsert_exists {C : List Rec} {r : Rec}
    (h : ∃ x ∈ C, x.id = r.id) :
    mergeRealtimeChange (some C) .INSERT (some r) none = some C := by
  have : C.any (fun item => item.id = r.id) = true := by
    obtain ⟨x, hx, hid⟩ := h
    exact List.any_eq_true.2 ⟨x, hx, by simpa using hid⟩
  simp [mergeRealtimeChange, this]

theorem mergeInsert_not_exists {C : List Rec} {r : Rec}
    (h : ¬ ∃ x ∈ C, x.id = r.id) :
    mergeRealtimeChange (some C) .INSERT (some r) none = some (C ++ [r]) := by
  have : C.any (fun item => item.id = r.id) = false := by
    rw [List.any_eq_false]
    intro x hx
    simp only [decide_eq_true_eq]
    exact fun hid => h ⟨x, hx, hid⟩
  simp [mergeRealtimeChange, this]

/-- C3: the merge engine returns null unchanged on a null base; on a
collection with at most one record per id, applying the same INSERT twice
leaves exactly one record with that id; INSERT is a no-op when the id is
already present and an append otherwise. -/
theorem C3_insert_idempotent_null_total (C : List Rec) (r : Rec)
    (hinv : C.countP (fun x => x.id = r.id) ≤ 1) :
    (∀ (e : RealtimeEvent) (nr o : Option Rec),
        mergeRealtimeChange none e nr o = none) ∧
    (∃ C₁ C₂, mergeRealtimeChange (some C) .INSERT (some r) none = some C₁ ∧
        mergeRealtimeChange (some C₁) .INSERT (some r) none = some C₂ ∧
        C₂.countP (fun x => x.id = r.id) = 1) ∧
    ((∃ x ∈ C, x.id = r.id) →
        mergeRealtimeChange (some C) .INSERT (some r) none = some C) ∧
    ((¬ ∃ x ∈ C, x.id = r.id) →
        mergeRealtimeChange (some C) .INSERT (some r) none = some (C ++ [r])) := by
  refine ⟨fun e nr o => rfl, ?_, fun h => mergeInsert_exists h, fun h => mergeInsert_not_exists h⟩
  by_cases h : ∃ x ∈ C, x.id = r.id
  · refine ⟨C, C, mergeInsert_exists h, mergeInsert_exists h, ?_⟩
    have hpos : 0 < C.countP (fun x => x.id = r.id) := by
      obtain ⟨x, hx, hid⟩ := h
      exact List.countP_pos_iff.2 ⟨x, hx, by simpa using hid⟩
    omega
  · refine ⟨C ++ [r], C ++ [r], mergeInsert_not_exists h, ?_, ?_⟩
    · apply mergeInsert_exists
      exact ⟨r, by simp, rfl⟩
    · have hz : C.countP (fun x => x.id = r.id) = 0 := by
        rw [List.countP_eq_zero]
        intro x hx
        simp only [decide_eq_true_eq]
        exact fun hid => h ⟨x, hx, hid⟩
      simp [List.countP_append, hz]

theorem C3_witness :
    ([(⟨"a", []⟩ : Rec)].countP (fun x => x.id = ("a" : String)) ≤ 1) ∧
    (∃ C₁ C₂,
        mergeRealtimeChange (some [⟨"a", []⟩]) .INSERT (some ⟨"a", []⟩) none = some C₁ ∧
        mergeRealtimeChange (some C₁) .INSERT (some ⟨"a", []⟩) none = some C₂ ∧
        C₂.countP (fun x => x.id = ("a" : String)) = 1) :=
  ⟨by decide, (C3_insert_idempotent_null_total [⟨"a", []⟩] ⟨"a", []⟩ (by decide)).2.1⟩

/-! Shallow-merge field lemmas for the UPDATE case -/

theorem lookupField_cons (a : String × Int) (t : List (String × Int)) (k : String) :
    lookupField (a :: t) k = if a.1 = k then some a.2 else lookupField t k := by
  by_cases h : a.1 = k
  · simp [lookupField, List.find?_cons_of_pos, h]
  · simp [lookupField, List.find?_cons_of_neg, h]

theorem lookupField_append (l₁ l₂ : List (String × Int)) (k : String) :
    lookupField (l₁ ++ l₂) k =
      match lookupField l₁ k with
      | some v => some v
      | none => lookupField l₂ k := by
  induction l₁ with
  | nil => simp [lookupField]
  | cons a t ih =>
    rw [List.cons_append, lookupField_cons, lookupField_cons]
    by_cases h : a.1 = k <;> simp [h, ih]

theorem lookupField_map_override (old new : List (String × Int)) (k : String) :
    lookupField (old.map (fun p => (p.1, (lookupField new p.1).getD p.2))) k =
      (lookupField old k).map (fun v => (lookupField new k).getD v) := by
  induction old with
  | nil => simp [lookupField]
  | cons a t ih =>
    rw [List.map_cons, lookupField_cons, lookupField_cons]
    by_cases h : a.1 = k
    · subst h
      simp
    · simp [h, ih]

theorem lookupField_filter_kept (old new : List (String × Int)) (k : String) :
    lookupField (new.filter (fun p => lookupField old p.1 = none)) k =
      if lookupField old k = none then lookupField new k else none := by
  induction new with
  | nil => simp [lookupField]
  | cons a t ih =>
    by_cases hold : lookupField old a.1 = none
    · rw [List.filter_cons, if_pos (by simpa using hold), lookupField_cons,
        lookupField_cons]
      by_cases hk : a.1 = k
      · subst hk
        simp [hold]
      · simp [hk, ih]
    · rw [List.filter_cons, if_neg (by simpa using hold), ih, lookupField_cons]
      by_cases hk : a.1 = k
      · subst hk
        simp [hold]
      · simp [hk]

theorem lookupField_spreadFields_of_some (old new : List (String × Int))
    (k : String) (v : Int) (h : lookupField new k = some v) :
    lookupField (spreadFields old new) k = some v := by
  rw [spreadFields, lookupField_append, lookupField_map_override,
    lookupField_filter_kept]
  cases hold : lookupField old k with
  | some w => simp [h]
  | none => simp [hold, h]

theorem lookupField_spreadFields_of_none (old new : List (String × Int))
    (k : String) (h : lookupField new k = none) :
    lookupField (spreadFields old new) k = lookupField old k := by
  rw [spreadFields, lookupField_append, lookupField_map_override,
    lookupField_filter_kept]
  cases hold : lookupField old k with
  | some w => simp [h]
  | none => simp [hold, h]

/-- C7: UPDATE is a frame-preserving shallow merge.  The merged collection
is the positional map replacing only records whose id matches; a record at
a position whose id differs is returned unchanged at the same position;
fields carried by the event override, fields absent from the event are
untouched; with no matching id the collection is returned unchanged. -/
theorem C7_update_shallow_merge_frame (C : List Rec) (r : Rec) :
    mergeRealtimeChange (some C) .UPDATE (some r) none =
      some (C.map fun item => if item.id = r.id then spreadMerge item r else item) ∧
    (∀ (i : Nat) (x : Rec), C[i]? = some x → x.id ≠ r.id →
        (C.map fun item => if item.id = r.id then spreadMerge item r else item)[i]? =
          some x) ∧
    (∀ (old : Rec) (k : String) (v : Int), lookupField r.fields k = some v →
        lookupField (spreadMerge old r).fields k = some v) ∧
    (∀ (old : Rec) (k : String), lookupField r.fields k = none →
        lookupField (spreadMerge old r).fields k = lookupField old.fields k) ∧
    ((∀ x ∈ C, x.id ≠ r.id) →
        mergeRealtimeChange (some C) .UPDATE (some r) none = some C) := by
  refine ⟨rfl, ?_, ?_, ?_, ?_⟩
  · intro i x hx hne
    simp [List.getElem?_map, hx, hne]
  · intro old k v h
    exact lookupField_spreadFields_of_some old.fields r.fields k v h
  · intro old k h
    exact lookupField_spreadFields_of_none old.fields r.fields k h
  · intro h
    have hmap : (C.map fun item =>
        if item.id = r.id then spreadMerge item r else item) = C := by
      induction C with
      | nil => rfl
      | cons a t ih =>
        simp only [List.map_cons]
        rw [if_neg (h a (by simp)), ih (fun x hx => h x (by simp [hx]))]
    simp [mergeRealtimeChange, hmap]

theorem C7_witness :
    lookupField (Rec.mk ("a") [("u", 5)]).fields ("x") = none ∧
    lookupField (spreadMerge (Rec.mk ("a") [("u", 1), ("x", 2)]) (Rec.mk ("a") [("u", 5)])).fields ("x") =
      lookupField (Rec.mk ("a") [("u", 1), ("x", 2)]).fields ("x") :=
  ⟨by decide,
    (C7_update_shallow_merge_frame [] (Rec.mk ("a") [("u", 5)])).2.2.2.1
      (Rec.mk ("a") [("u", 1), ("x", 2)]) ("x") (by decide)⟩

/-! Subscription Manager: debounce (useRealtimeSubscription)

The hook keeps ONE timeout handle (debounceTimeoutRef) shared by
debouncedInsert, debouncedUpdate and debouncedDelete; each of the three
first clears whatever timeout is pending (of any kind) and then arms a new
one for its own callback, 100ms later.  We model the handle as the pending
delivery (fire time, kind, payload) and replay a chronologically ordered
list of raw notifications: a pending delivery whose fire time has passed
by the next notification has already fired; otherwise the notification
clears it. -/

inductive EventKind
  | insert
  | update
  | delete
deriving DecidableEq, Repr

structure RawNotification where
  time : Nat
  kind : EventKind
  payload : Nat
deriving DecidableEq, Repr

def debounceDelay : Nat := 100

/-- One raw notification against the shared timeout handle: deliveries
fired before this notification arrives, and the new pending state. -/
def debounceStep (st : Option (Nat × EventKind × Nat)) (e : RawNotification) :
    List (EventKind × Nat) × Option (Nat × EventKind × Nat) :=
  match st with
  | some (ft, k, p) =>
    if ft ≤ e.time then
      ([(k, p)], some (e.time + debounceDelay, e.kind, e.payload))
    else
      ([], some (e.time + debounceDelay, e.kind, e.payload))
  | none => ([], some (e.time + debounceDelay, e.kind, e.payload))

def debounceRunAux (st : Option (Nat × EventKind × Nat)) :
    List RawNotification → List (EventKind × Nat)
  | [] =>
    match st with
    | some (_, k, p) => [(k, p)]
    | none => []
  | e :: es =>
    let out := debounceStep st e
    out.1 ++ debounceRunAux out.2 es

/-- All callback deliveries produced by a chronological burst of raw
notifications, starting with no pending timeout. -/
def debounceRun (es : List RawNotification) : List (EventKind × Nat) :=
  debounceRunAux none es

/-- C1, counterexample: an INSERT at t=0 followed by an UPDATE at t=10
(well inside the 100ms window) delivers only the onUpdate callback; the
burst contains one insert notification but zero onInsert deliveries, so
the cross-kind independence stated by the claim fails. -/
theorem C1_counterexample :
    debounceRun [⟨0, .insert, 1⟩, ⟨10, .update, 2⟩] = [(.update, 2)] ∧
    ([(⟨0, .insert, 1⟩ : RawNotification), ⟨10, .update, 2⟩].countP
        (fun e => e.kind = .insert)) = 1 ∧
    ((debounceRun [⟨0, .insert, 1⟩, ⟨10, .update, 2⟩]).countP
        (fun d => d.1 = .insert)) = 0 := by
  refine ⟨?_, by decide, ?_⟩ <;> decide

/-- C1, amended: the three kinds share a single debounce timer, so for any
two raw notifications where the second arrives within the 100ms window of
the first, only the callback of the second notification is delivered (with the
payload of the second), regardless of the kinds involved; the first delivery is
cancelled even when the kinds differ. -/
theorem C1_shared_debounce_last_event_wins
    (t₁ t₂ : Nat) (k₁ k₂ : EventKind) (p₁ p₂ : Nat)
    (_horder : t₁ ≤ t₂) (hwin : t₂ < t₁ + debounceDelay) :
    debounceRun [⟨t₁, k₁, p₁⟩, ⟨t₂, k₂, p₂⟩] = [(k₂, p₂)] := by
  have hlt : ¬ t₁ + debounceDelay ≤ t₂ := by omega
  simp [debounceRun, debounceRunAux, debounceStep, hlt]

theorem C1_witness :
    ((0 : Nat) ≤ 10 ∧ (10 : Nat) < 0 + debounceDelay) ∧
    debounceRun [⟨0, .insert, 1⟩, ⟨10, .update, 2⟩] = [(.update, 2)] :=
  ⟨⟨by decide, by decide⟩,
    C1_shared_debounce_last_event_wins 0 10 .insert .update 1 2 (by decide) (by decide)⟩

/-! Subscription Manager: reconnect with backoff

Embedding of handleError and the status callback of
useRealtimeSubscription (src/unnamed/part_006).  The mutable
retryCountRef is the state; maxRetries = 5, baseRetryDelay = 1000ms.
handleError always invokes onError; below the maximum it schedules a
reconnect after baseRetryDelay * 2 ^ retryCount and increments the
counter, at or beyond the maximum it only logs.  A SUBSCRIBED status (and
any raw event) resets the counter to zero. -/

def maxRetries : Nat := 5

def baseRetryDelay : Nat := 1000

structure SubOutput where
  onErrorInvoked : Bool
  reconnectDelay : Option Nat
deriving DecidableEq, Repr

def handleError (retryCount : Nat) : Nat × SubOutput :=
  if retryCount < maxRetries then
    (retryCount + 1, ⟨true, some (baseRetryDelay * 2 ^ retryCount)⟩)
  else
    (retryCount, ⟨true, none⟩)

inductive SubEvent
  | channelError
  | subscribed
  | rawEvent
deriving DecidableEq, Repr

def stepSub (retryCount : Nat) : SubEvent → Nat × SubOutput
  | .channelError => handleError retryCount
  | .subscribed => (0, ⟨false, none⟩)
  | .rawEvent => (0, ⟨false, none⟩)

/-- Replay a list of subscription events, collecting the outputs. -/
def runSub (retryCount : Nat) : List SubEvent → Nat × List SubOutput
  | [] => (retryCount, [])
  | e :: es =>
    let out := stepSub retryCount e
    let rest := runSub out.1 es
    (rest.1, out.2 :: rest.2)

theorem handleError_of_maxed {rc : Nat} (h : maxRetries ≤ rc) :
    handleError rc = (rc, ⟨true, none⟩) := by
  rw [handleError, if_neg (by omega)]

/-- C6: every error invokes onError; below the maximum of 5 an error
schedules a reconnect after baseRetryDelay * 2 ^ retryCount (base 1000ms)
and increments the counter; once the counter has reached 5, no sequence of
further errors ever schedules a reconnect; a SUBSCRIBED status resets the
counter to zero. -/
theorem C6_reconnect_backoff_policy (rc : Nat) :
    ((stepSub rc .channelError).2.onErrorInvoked = true) ∧
    (rc < maxRetries →
        stepSub rc .channelError =
          (rc + 1, ⟨true, some (baseRetryDelay * 2 ^ rc)⟩)) ∧
    (maxRetries ≤ rc → ∀ es : List SubEvent, (∀ e ∈ es, e = .channelError) →
        ∀ o ∈ (runSub rc es).2, o.reconnectDelay = none) ∧
    (stepSub rc .subscribed = (0, ⟨false, none⟩)) := by
  refine ⟨?_, ?_, ?_, rfl⟩
  · by_cases h : rc < maxRetries <;> simp [stepSub, handleError, h]
  · intro h
    simp [stepSub, handleError, h]
  · intro hmax es
    induction es generalizing rc with
    | nil => intro _ o ho; simp [runSub] at ho
    | cons e t ih =>
      intro hall o ho
      have he : e = SubEvent.channelError := hall e (by simp)
      subst he
      rw [runSub] at ho
      simp only [stepSub] at ho
      rw [handleError_of_maxed hmax] at ho
      rcases List.mem_cons.1 ho with h1 | h2
      · rw [h1]
      · exact ih rc hmax (fun x hx => hall x (List.mem_cons_of_mem _ hx)) o h2

theorem C6_witness :
    ((3 : Nat) < maxRetries ∧
      stepSub 3 .channelError = (4, ⟨true, some (baseRetryDelay * 2 ^ 3)⟩)) ∧
    (maxRetries ≤ (5 : Nat) ∧
      ∀ o ∈ (runSub 5 [.channelError, .channelError]).2, o.reconnectDelay = none) :=
  ⟨⟨by decide, (C6_reconnect_backoff_policy 3).2.1 (by decide)⟩,
    ⟨by decide,
      (C6_reconnect_backoff_policy 5).2.2.1 (by decide)
        [.channelError, .channelError] (by decide)⟩⟩

/-! Preload/Cache Coordinator (fetchAllTextures in BrowseTextures.tsx)

The batch loop fetches ranges of batchSize = 500, checking the abort flag
at the top of every iteration, and breaks when a batch is empty or
shorter than batchSize.  We model the flag through abortAt : Option Nat:
some k means the user presses Stop after exactly k batches have been
processed (so the flag reads true at every loop check from the k-th on,
and at the final cache-write check).  The loop carries the part of the
server dataset not yet fetched (remaining = server.drop offset); the
result is the number of batch requests issued and the accumulated
records.  Fuel is remaining.length + 1, enough because every continuing
iteration consumes batchSize > 0 records. -/

def batchSize : Nat := 500

def isAborted (abortAt : Option Nat) (batchesDone : Nat) : Bool :=
  match abortAt with
  | some k => decide (k ≤ batchesDone)
  | none => false

def fetchBatchesFuel : Nat → List Rec → Nat → Option Nat → Nat × List Rec
  | 0, _, _, _ => (0, [])
  | fuel + 1, remaining, batchesDone, abortAt =>
    if isAborted abortAt batchesDone then (0, [])
    else if (remaining.take batchSize).length = 0 then (1, [])
    else if (remaining.take batchSize).length < batchSize then (1, remaining.take batchSize)
    else
      ((fetchBatchesFuel fuel (remaining.drop batchSize) (batchesDone + 1) abortAt).1 + 1,
        remaining.take batchSize ++
          (fetchBatchesFuel fuel (remaining.drop batchSize) (batchesDone + 1) abortAt).2)

def fetchBatches (remaining : List Rec) (batchesDone : Nat) (abortAt : Option Nat) :
    Nat × List Rec :=
  fetchBatchesFuel (remaining.length + 1) remaining batchesDone abortAt

/-- Merge of freshly fetched records with the previously cached set:
fresh records first, then the cached records whose id is not among the
fresh ids (idSet dedup of BrowseTextures.tsx lines 271-278). -/
def mergePreload (combined cachedTextures : List Rec) : List Rec :=
  combined ++ cachedTextures.filter (fun t => !(combined.any fun c => c.id = t.id))

/-- cachedTextures extraction at the top of fetchAllTextures: the cache
value when present and non-empty, otherwise the empty list. -/
def cachedOf (cache : Option (List Rec)) : List Rec :=
  match cache with
  | some v => if 0 < v.length then v else []
  | none => []

/-- The early-return guard of fetchAllTextures, line 235:
allTextures is non-null and non-empty.  There is no check of the
preloadLoading flag. -/
def alreadyLoadedGuard (allTextures : Option (List Rec)) : Bool :=
  match allTextures with
  | some l => decide (0 < l.length)
  | none => false

structure PreloadOutcome where
  batchRequests : Nat
  working : Option (List Rec)
  cacheAfter : Option (List Rec)
deriving DecidableEq, Repr

/-- Embedding of fetchAllTextures (BrowseTextures.tsx lines 221-293) as a
state transformer: reads the cache, publishes a warm cache immediately,
returns early when the working dataset is already non-empty, otherwise
runs the count query and the batch loop, publishes the merged dataset,
and writes the cache only when the abort flag is still clear at the end. -/
def fetchAllTextures (cache allTextures : Option (List Rec)) (server : List Rec)
    (abortAt : Option Nat) : PreloadOutcome :=
  let cachedTextures := cachedOf cache
  let published := if 0 < cachedTextures.length then some cachedTextures else allTextures
  if alreadyLoadedGuard allTextures then
    ⟨0, published, cache⟩
  else
    let run := fetchBatches server 0 abortAt
    let merged := mergePreload run.2 cachedTextures
    ⟨run.1, some merged, if isAborted abortAt run.1 then cache else some merged⟩

inductive PreloadRequest
  | countQuery
  | batchQuery (batchIndex : Nat)
deriving DecidableEq, Repr

/-- The network requests a single invocation of fetchAllTextures issues:
nothing when the already-loaded guard fires, otherwise the count query
followed by the batch range requests.  The preloadLoading flag is taken
as an argument to record that the source never consults it. -/
def fetchAllTexturesRequests (preloadLoading : Bool) (allTextures : Option (List Rec))
    (server : List Rec) (abortAt : Option Nat) : List PreloadRequest :=
  if alreadyLoadedGuard allTextures then []
  else
    PreloadRequest.countQuery ::
      (List.range (fetchBatches server 0 abortAt).1).map PreloadRequest.batchQuery

/-! Batch-loop lemmas -/

theorem fetchBatchesFuel_none_snd (fuel : Nat) :
    ∀ (remaining : List Rec) (done : Nat), remaining.length < fuel →
      (fetchBatchesFuel fuel remaining done none).2 = remaining := by
  induction fuel with
  | zero => intro remaining done h; omega
  | succ fuel ih =>
    intro remaining done h
    have hb : batchSize = 500 := rfl
    have htake : (remaining.take batchSize).length = min batchSize remaining.length :=
      List.length_take _ _
    rw [fetchBatchesFuel]
    simp only [isAborted, Bool.false_eq_true, if_false]
    by_cases h0 : (remaining.take batchSize).length = 0
    · rw [if_pos h0]
      have hnil : remaining = [] := List.length_eq_zero.1 (by omega)
      simp [hnil]
    · rw [if_neg h0]
      by_cases hs : (remaining.take batchSize).length < batchSize
      · rw [if_pos hs]
        show remaining.take batchSize = remaining
        exact List.take_of_length_le (by omega)
      · rw [if_neg hs]
        show remaining.take batchSize ++
          (fetchBatchesFuel fuel (remaining.drop batchSize) (done + 1) none).2 = remaining
        rw [ih (remaining.drop batchSize) (done + 1) (by rw [List.length_drop]; omega)]
        exact List.take_append_drop _ _

theorem fetchBatchesFuel_some_snd (fuel : Nat) :
    ∀ (remaining : List Rec) (done k : Nat), remaining.length < fuel →
      (fetchBatchesFuel fuel remaining done (some k)).2 =
        remaining.take (batchSize * (k - done)) := by
  induction fuel with
  | zero => intro remaining done k h; omega
  | succ fuel ih =>
    intro remaining done k h
    have hb : batchSize = 500 := rfl
    have htake : (remaining.take batchSize).length = min batchSize remaining.length :=
      List.length_take _ _
    rw [fetchBatchesFuel]
    by_cases habort : k ≤ done
    · have hab : isAborted (some k) done = true := by simp [isAborted, habort]
      rw [hab]
      have hkd : k - done = 0 := by omega
      simp [hkd]
    · have hab : isAborted (some k) done = false := by simp [isAborted, habort]
      rw [hab]
      simp only [Bool.false_eq_true, if_false]
      have hkd : 1 ≤ k - done := by omega
      by_cases h0 : (remaining.take batchSize).length = 0
      · rw [if_pos h0]
        have hnil : remaining = [] := List.length_eq_zero.1 (by omega)
        simp [hnil]
      · rw [if_neg h0]
        by_cases hs : (remaining.take batchSize).length < batchSize
        · rw [if_pos hs]
          show remaining.take batchSize = remaining.take (batchSize * (k - done))
          have hle : batchSize ≤ batchSize * (k - done) := by
            calc batchSize = batchSize * 1 := by ring
              _ ≤ batchSize * (k - done) := Nat.mul_le_mul_left _ hkd
          rw [List.take_of_length_le (by omega), List.take_of_length_le (by omega)]
        · rw [if_neg hs]
          show remaining.take batchSize ++
              (fetchBatchesFuel fuel (remaining.drop batchSize) (done + 1) (some k)).2 =
            remaining.take (batchSize * (k - done))
          rw [ih (remaining.drop batchSize) (done + 1) k (by rw [List.length_drop]; omega)]
          have hsplit : batchSize * (k - done) = batchSize + batchSize * (k - (done + 1)) := by
            have hstep : k - done = (k - (done + 1)) + 1 := by omega
            rw [hstep]
            ring
          rw [hsplit, List.take_add]

theorem fetchBatchesFuel_some_fst (fuel : Nat) :
    ∀ (remaining : List Rec) (done k : Nat), remaining.length < fuel →
      (fetchBatchesFuel fuel remaining done (some k)).1 =
        min (k - done) (fetchBatchesFuel fuel remaining done none).1 := by
  induction fuel with
  | zero => intro remaining done k h; omega
  | succ fuel ih =>
    intro remaining done k h
    have hb : batchSize = 500 := rfl
    have htake : (remaining.take batchSize).length = min batchSize remaining.length :=
      List.length_take _ _
    rw [fetchBatchesFuel, fetchBatchesFuel]
    simp only [isAborted, Bool.false_eq_true, if_false]
    by_cases habort : k ≤ done
    · rw [if_pos (show decide (k ≤ done) = true by simp [habort])]
      have hkd : k - done = 0 := by omega
      simp [hkd]
    · rw [if_neg (show ¬ decide (k ≤ done) = true by simp [habort])]
      have hkd : 1 ≤ k - done := by omega
      by_cases h0 : (remaining.take batchSize).length = 0
      · rw [if_pos h0, if_pos h0]
        show 1 = min (k - done) (1, ([] : List Rec)).1
        simp only
        omega
      · rw [if_neg h0, if_neg h0]
        by_cases hs : (remaining.take batchSize).length < batchSize
        · rw [if_pos hs, if_pos hs]
          show 1 = min (k - done) (1, remaining.take batchSize).1
          simp only
          omega
        · rw [if_neg hs, if_neg hs]
          show (fetchBatchesFuel fuel (remaining.drop batchSize) (done + 1) (some k)).1 + 1 =
            min (k - done)
              ((fetchBatchesFuel fuel (remaining.drop batchSize) (done + 1) none).1 + 1)
          rw [ih (remaining.drop batchSize) (done + 1) k (by rw [List.length_drop]; omega)]
          omega

theorem fetchBatchesFuel_none_fst_pos (fuel : Nat) :
    ∀ (remaining : List Rec) (done : Nat), remaining.length < fuel →
      1 ≤ (fetchBatchesFuel fuel remaining done none).1 := by
  induction fuel with
  | zero => intro remaining done h; omega
  | succ fuel ih =>
    intro remaining done h
    rw [fetchBatchesFuel]
    simp only [isAborted, Bool.false_eq_true, if_false]
    by_cases h0 : (remaining.take batchSize).length = 0
    · rw [if_pos h0]
    · rw [if_neg h0]
      by_cases hs : (remaining.take batchSize).length < batchSize
      · rw [if_pos hs]
      · rw [if_neg hs]
        show 1 ≤ (fetchBatchesFuel fuel (remaining.drop batchSize) (done + 1) none).1 + 1
        omega

theorem fetchBatches_none_snd (server : List Rec) :
    (fetchBatches server 0 none).2 = server :=
  fetchBatchesFuel_none_snd _ server 0 (by omega)

theorem fetchBatches_some_snd (server : List Rec) (k : Nat) :
    (fetchBatches server 0 (some k)).2 = server.take (batchSize * k) := by
  have h := fetchBatchesFuel_some_snd (server.length + 1) server 0 k (by omega)
  simpa using h

theorem fetchBatches_some_fst (server : List Rec) (k : Nat) :
    (fetchBatches server 0 (some k)).1 = min k (fetchBatches server 0 none).1 := by
  have h := fetchBatchesFuel_some_fst (server.length + 1) server 0 k (by omega)
  simpa using h

/-! C2: the only guard is already-loaded, not already-loading -/

/-- C2, counterexample: with a preload already running (loading flag true)
but the working dataset still null, a second trigger is not a no-op: it
issues the count query and a batch request. -/
theorem C2_counterexample :
    fetchAllTexturesRequests true none [⟨"a", []⟩] none =
      [PreloadRequest.countQuery, PreloadRequest.batchQuery 0] ∧
    fetchAllTexturesRequests true none [⟨"a", []⟩] none ≠ [] := by
  constructor <;> decide

/-- C2, amended: a preload trigger issues no count query and no batch
requests exactly when the working dataset is already non-null and
non-empty; the guard never consults the loading flag, so the set of
requests issued is identical whether or not a preload is already
running. -/
theorem C2_noop_iff_already_loaded (preloadLoading : Bool)
    (allTextures : Option (List Rec)) (server : List Rec) (abortAt : Option Nat) :
    (fetchAllTexturesRequests preloadLoading allTextures server abortAt = [] ↔
      alreadyLoadedGuard allTextures = true) ∧
    fetchAllTexturesRequests true allTextures server abortAt =
      fetchAllTexturesRequests false allTextures server abortAt := by
  refine ⟨?_, rfl⟩
  by_cases hg : alreadyLoadedGuard allTextures = true
  · simp [fetchAllTexturesRequests, hg]
  · simp [fetchAllTexturesRequests, hg]

theorem C2_witness :
    (fetchAllTexturesRequests false (some [⟨"a", []⟩]) [] none = [] ↔
      alreadyLoadedGuard (some [(⟨"a", []⟩ : Rec)]) = true) :=
  (C2_noop_iff_already_loaded false (some [⟨"a", []⟩]) [] none).1

/-! C4: cancellation leaves no partial-as-complete state -/

/-- C4: aborting after k completed batches issues no batch request beyond
the k-th (the request count is capped at k), leaves the Persistent Cache
Store entry untouched, and publishes as the working dataset exactly the
records of the completed batches merged with the previously cached
records. -/
theorem C4_abort_no_partial_commit (cache : Option (List Rec)) (server : List Rec)
    (k : Nat) (hk : k ≤ (fetchBatches server 0 none).1) :
    (fetchAllTextures cache none server (some k)).batchRequests =
      min k (fetchBatches server 0 none).1 ∧
    (fetchAllTextures cache none server (some k)).cacheAfter = cache ∧
    (fetchAllTextures cache none server (some k)).working =
      some (mergePreload (server.take (batchSize * k)) (cachedOf cache)) := by
  have hguard : alreadyLoadedGuard (none : Option (List Rec)) = false := rfl
  have hfst := fetchBatches_some_fst server k
  have hsnd := fetchBatches_some_snd server k
  have habt : isAborted (some k) (fetchBatches server 0 (some k)).1 = true := by
    rw [hfst]
    simp only [isAborted, decide_eq_true_eq]
    omega
  refine ⟨?_, ?_, ?_⟩
  · simp only [fetchAllTextures, hguard, Bool.false_eq_true, if_false]
    exact hfst
  · simp only [fetchAllTextures, hguard, Bool.false_eq_true, if_false, habt, if_true]
  · simp only [fetchAllTextures, hguard, Bool.false_eq_true, if_false, hsnd]

theorem C4_witness :
    ((0 : Nat) ≤ (fetchBatches [(⟨"a", []⟩ : Rec)] 0 none).1) ∧
    (fetchAllTextures (some [⟨"c", []⟩]) none [⟨"a", []⟩] (some 0)).batchRequests =
      min 0 (fetchBatches [(⟨"a", []⟩ : Rec)] 0 none).1 ∧
    (fetchAllTextures (some [⟨"c", []⟩]) none [⟨"a", []⟩] (some 0)).cacheAfter =
      some [⟨"c", []⟩] ∧
    (fetchAllTextures (some [⟨"c", []⟩]) none [⟨"a", []⟩] (some 0)).working =
      some (mergePreload ([(⟨"a", []⟩ : Rec)].take (batchSize * 0))
        (cachedOf (some [⟨"c", []⟩]))) :=
  ⟨by decide,
    C4_abort_no_partial_commit (some [⟨"c", []⟩]) [⟨"a", []⟩] 0 (by decide)⟩

/-! C5: preload merge precedence -/

theorem countP_id_le_one_of_nodup :
    ∀ {l : List Rec}, (l.map Rec.id).Nodup → ∀ x : String,
      l.countP (fun r => r.id = x) ≤ 1 := by
  intro l
  induction l with
  | nil => intro _ x; simp
  | cons a t ih =>
    intro hnd x
    rw [List.map_cons, List.nodup_cons] at hnd
    rw [List.countP_cons]
    by_cases hax : a.id = x
    · have hz : t.countP (fun r => r.id = x) = 0 := by
        rw [List.countP_eq_zero]
        intro r hr
        simp only [decide_eq_true_eq]
        intro hrx
        exact hnd.1 (by rw [hax, ← hrx]; exact List.mem_map_of_mem _ hr)
      simp [hz, hax]
    · have ht := ih hnd.2 x
      simp [hax]
      omega

/-- C5: mergePreload puts all freshly fetched records first, followed by
exactly the cached records whose id is not among the fetched ids; under
the one-record-per-id invariant of both inputs the result has at most one
record per id, for an id present among the fetched records only the fresh
copies survive, and every cached-only record is kept. -/
theorem C5_preload_merge_precedence (fresh cached : List Rec)
    (hf : (fresh.map Rec.id).Nodup) (hc : (cached.map Rec.id).Nodup) :
    mergePreload fresh cached =
      fresh ++ cached.filter (fun t => !(fresh.any fun c => c.id = t.id)) ∧
    (∀ x : String, (mergePreload fresh cached).countP (fun r => r.id = x) ≤ 1) ∧
    (∀ x : String, (∃ c ∈ fresh, c.id = x) →
      (mergePreload fresh cached).filter (fun r => r.id = x) =
        fresh.filter (fun r => r.id = x)) ∧
    (∀ t ∈ cached, (∀ c ∈ fresh, c.id ≠ t.id) → t ∈ mergePreload fresh cached) := by
  refine ⟨rfl, ?_, ?_, ?_⟩
  · intro x
    rw [mergePreload, List.countP_append]
    have h1 := countP_id_le_one_of_nodup hf x
    by_cases hx : ∃ c ∈ fresh, c.id = x
    · have h2 : (cached.filter (fun t => !(fresh.any fun c => c.id = t.id))).countP
          (fun r => r.id = x) = 0 := by
        rw [List.countP_eq_zero]
        intro r hr
        have hrf := (List.mem_filter.1 hr).2
        simp only [Bool.not_eq_true', List.any_eq_false, decide_eq_true_eq] at hrf
        simp only [decide_eq_true_eq]
        intro hrx
        obtain ⟨c, hcf, hcx⟩ := hx
        exact hrf c hcf (by rw [hcx, hrx])
      omega
    · have h2 : (cached.filter (fun t => !(fresh.any fun c => c.id = t.id))).countP
          (fun r => r.id = x) ≤ cached.countP (fun r => r.id = x) := by
        rw [List.countP_filter]
        exact List.countP_mono_left (fun r _ => by
          simp only [Bool.and_eq_true, decide_eq_true_eq]
          exact fun hp => hp.1)
      have h3 := countP_id_le_one_of_nodup hc x
      have h4 : fresh.countP (fun r => r.id = x) = 0 := by
        rw [List.countP_eq_zero]
        intro r hr
        simp only [decide_eq_true_eq]
        exact fun hrx => hx ⟨r, hr, hrx⟩
      omega
  · intro x hx
    rw [mergePreload, List.filter_append]
    have h2 : (cached.filter (fun t => !(fresh.any fun c => c.id = t.id))).filter
        (fun r => r.id = x) = [] := by
      rw [List.filter_eq_nil_iff]
      intro r hr
      have hrf := (List.mem_filter.1 hr).2
      simp only [Bool.not_eq_true', List.any_eq_false, decide_eq_true_eq] at hrf
      simp only [decide_eq_true_eq]
      intro hrx
      obtain ⟨c, hcf, hcx⟩ := hx
      exact hrf c hcf (by rw [hcx, hrx])
    rw [h2, List.append_nil]
  · intro t ht hnone
    rw [mergePreload]
    refine List.mem_append.2 (Or.inr (List.mem_filter.2 ⟨ht, ?_⟩))
    simp only [Bool.not_eq_true', List.any_eq_false, decide_eq_true_eq]
    exact hnone

theorem C5_witness :
    ((([(⟨"a", [("v", 2)]⟩ : Rec), ⟨"b", []⟩]).map Rec.id).Nodup ∧
      (([(⟨"a", [("v", 1)]⟩ : Rec), ⟨"c", []⟩]).map Rec.id).Nodup) ∧
    (mergePreload [⟨"a", [("v", 2)]⟩, ⟨"b", []⟩]
        [⟨"a", [("v", 1)]⟩, ⟨"c", []⟩]).countP (fun r => r.id = ("a" : String)) ≤ 1 :=
  ⟨⟨by decide, by decide⟩,
    (C5_preload_merge_precedence [⟨"a", [("v", 2)]⟩, ⟨"b", []⟩]
      [⟨"a", [("v", 1)]⟩, ⟨"c", []⟩] (by decide) (by decide)).2.1 ("a")⟩

/-! View Composer: pagination window (BrowseTextures.tsx)

pageSize = 10; visibleTextures = sortedTextures.slice(0, (page + 1) *
pageSize); the hasMoreTextures effect keeps the flag equal to
filteredTextures.length > (page + 1) * pageSize; loadMore increments the
page only when hasMoreTextures is true and no fallback fetch is in
flight (with the dataset preloaded, loadingMore stays false and no
network request is made). -/

def pageSize : Nat := 10

def hasMoreTextures (filteredLen page : Nat) : Bool :=
  decide ((page + 1) * pageSize < filteredLen)

def loadMoreTextures (filteredLen page : Nat) (loadingMore : Bool) : Nat :=
  if hasMoreTextures filteredLen page && !loadingMore then page + 1 else page

/-- The page index after k calls of loadMore over a fixed filtered
dataset, with no fallback fetch in flight. -/
def pageAfterLoadMore (filteredLen : Nat) : Nat → Nat
  | 0 => 0
  | k + 1 => loadMoreTextures filteredLen (pageAfterLoadMore filteredLen k) false

def visibleTextures (sorted : List Rec) (page : Nat) : List Rec :=
  sorted.take ((page + 1) * pageSize)

theorem pageAfterLoadMore_spec (N k : Nat) :
    min N ((pageAfterLoadMore N k + 1) * pageSize) = min N ((k + 1) * pageSize) ∧
    (N ≤ (pageAfterLoadMore N k + 1) * pageSize ↔ N ≤ (k + 1) * pageSize) := by
  induction k with
  | zero => exact ⟨rfl, Iff.rfl⟩
  | succ k ih =>
    obtain ⟨ih1, ih2⟩ := ih
    have hps : pageSize = 10 := rfl
    rw [hps] at ih1 ih2 ⊢
    simp only [pageAfterLoadMore, loadMoreTextures, Bool.not_false, Bool.and_true,
      hasMoreTextures]
    by_cases h : (pageAfterLoadMore N k + 1) * pageSize < N
    · rw [if_pos (by simpa using h)]
      rw [hps] at h
      constructor
      · omega
      · omega
    · rw [if_neg (by simpa using h)]
      rw [hps] at h
      constructor
      · omega
      · omega

/-- C8: over a fixed filtered and sorted dataset of N records with the
page size of 10, after k loadMore calls the visible window is exactly the
prefix of the sorted dataset of length min N ((k + 1) * pageSize), and
hasMoreTextures is false exactly when (k + 1) * pageSize covers all N
records. -/
theorem C8_pagination_window_monotone (sorted : List Rec) (k : Nat) :
    (visibleTextures sorted (pageAfterLoadMore sorted.length k)).length =
      min sorted.length ((k + 1) * pageSize) ∧
    visibleTextures sorted (pageAfterLoadMore sorted.length k) =
      sorted.take ((k + 1) * pageSize) ∧
    (hasMoreTextures sorted.length (pageAfterLoadMore sorted.length k) = false ↔
      sorted.length ≤ (k + 1) * pageSize) := by
  obtain ⟨h1, h2⟩ := pageAfterLoadMore_spec sorted.length k
  refine ⟨?_, ?_, ?_⟩
  · rw [visibleTextures, List.length_take]
    omega
  · rw [visibleTextures, List.take_eq_take]
    omega
  · rw [hasMoreTextures]
    simp only [decide_eq_false_iff_not, not_lt]
    exact h2

theorem C8_witness :
    (visibleTextures [⟨"a", []⟩, ⟨"b", []⟩]
        (pageAfterLoadMore ([(⟨"a", []⟩ : Rec), ⟨"b", []⟩]).length 1)).length =
      min ([(⟨"a", []⟩ : Rec), ⟨"b", []⟩]).length ((1 + 1) * pageSize) :=
  (C8_pagination_window_monotone [⟨"a", []⟩, ⟨"b", []⟩] 1).1

/-! View Composer: records, search and sort

Texture and Pack rows as used by BrowseTextures.tsx (the Pack row carries
no download_count field; the sort comment in the source states packs do
not have one).  String operations model the JavaScript semantics over
character lists: trim strips leading and trailing whitespace, toLowerCase
lowers ASCII letters, includes is substring containment. -/

inductive Status
  | pending
  | approved
  | rejected
deriving DecidableEq, Repr

structure Texture where
  id : String
  user_id : Option String
  title : String
  description : String
  author : String
  aircraft : String
  category : String
  texture_type : String
  texture_url : String
  thumbnail_url : String
  status : Status
  upvotes : Int
  downvotes : Int
  download_count : Int
  created_at : Nat
  updated_at : Nat
deriving DecidableEq, Repr

structure Pack where
  id : String
  user_id : Option String
  title : String
  description : String
  author : String
  thumbnail_url : String
  status : Status
  upvotes : Int
  downvotes : Int
  created_at : Nat
  updated_at : Nat
deriving DecidableEq, Repr

def jsTrimList (cs : List Char) : List Char :=
  ((cs.dropWhile Char.isWhitespace).reverse.dropWhile Char.isWhitespace).reverse

/-- JS String.prototype.trim (over the ASCII whitespace handled here). -/
def jsTrim (s : String) : String := ⟨jsTrimList s.data⟩

/-- JS String.prototype.toLowerCase, ASCII range. -/
def toLowerCase (s : String) : String := ⟨s.data.map Char.toLower⟩

/-- JS String.prototype.includes. -/
def includesStr (s sub : String) : Bool :=
  (List.range (s.data.length + 1)).any fun i => sub.data.isPrefixOf (s.data.drop i)

def isHexChar (c : Char) : Bool :=
  (decide ('0' ≤ c) && decide (c ≤ '9')) ||
    (decide ('a' ≤ c) && decide (c ≤ 'f')) ||
    (decide ('A' ≤ c) && decide (c ≤ 'F'))

/-- Split a character list at every dash, keeping empty groups. -/
def splitOnDash : List Char → List (List Char)
  | [] => [[]]
  | c :: rest =>
    let r := splitOnDash rest
    if c = '-' then [] :: r
    else
      match r with
      | [] => [[c]]
      | g :: gs => (c :: g) :: gs

/-- The UUID test of BrowseTextures.tsx lines 408-411: the trimmed term
matches the case-insensitive 8-4-4-4-12 hexadecimal pattern. -/
def isUUIDSearch (term : String) : Bool :=
  match splitOnDash (jsTrimList term.data) with
  | [a, b, c, d, e] =>
    decide (a.length = 8) && decide (b.length = 4) && decide (c.length = 4) &&
      decide (d.length = 4) && decide (e.length = 12) &&
      (a ++ b ++ c ++ d ++ e).all isHexChar
  | _ => false

/-- The per-record predicate of filteredTextures (BrowseTextures.tsx
lines 430-446): UUID searches compare the id case-insensitively against
the trimmed term and nothing else; otherwise free-text matching over
title, description, author and id is combined with the three multi-select
filters. -/
def textureMatchesFilter (searchTerm : String)
    (filterAircraft filterCategory filterType : List String) (t : Texture) : Bool :=
  if isUUIDSearch searchTerm then
    toLowerCase t.id == toLowerCase (jsTrim searchTerm)
  else
    (includesStr (toLowerCase t.title) (toLowerCase searchTerm) ||
      includesStr (toLowerCase t.description) (toLowerCase searchTerm) ||
      includesStr (toLowerCase t.author) (toLowerCase searchTerm) ||
      includesStr (toLowerCase t.id) (toLowerCase searchTerm)) &&
    (filterAircraft.isEmpty || filterAircraft.contains t.aircraft) &&
    (filterCategory.isEmpty || filterCategory.contains t.category) &&
    (filterType.isEmpty || filterType.contains t.texture_type)

/-- C9: whenever the trimmed search term matches the UUID pattern, the
filter predicate is exactly the case-insensitive comparison of the record
id with the trimmed term, and it does not depend on the multi-select
aircraft/category/type filters. -/
theorem C9_uuid_exact_match_short_circuit (searchTerm : String)
    (filterAircraft filterCategory filterType : List String) (t : Texture)
    (h : isUUIDSearch searchTerm = true) :
    textureMatchesFilter searchTerm filterAircraft filterCategory filterType t =
      (toLowerCase t.id == toLowerCase (jsTrim searchTerm)) ∧
    (∀ fa fc ft : List String,
        textureMatchesFilter searchTerm filterAircraft filterCategory filterType t =
          textureMatchesFilter searchTerm fa fc ft t) := by
  constructor
  · simp [textureMatchesFilter, h]
  · intro fa fc ft
    simp [textureMatchesFilter, h]

theorem C9_witness :
    isUUIDSearch (" 123e4567-e89b-12d3-a456-426614174000 ") = true ∧
    textureMatchesFilter (" 123e4567-e89b-12d3-a456-426614174000 ")
        ["A320"] [] [] (⟨"123E4567-E89B-12D3-A456-426614174000", none, "t", "d",
          "au", "A320", "cat", "ty", "u", "th", .approved, 0, 0, 0, 0, 0⟩ : Texture) =
      (toLowerCase (Texture.id ⟨"123E4567-E89B-12D3-A456-426614174000", none, "t", "d",
          "au", "A320", "cat", "ty", "u", "th", .approved, 0, 0, 0, 0, 0⟩) ==
        toLowerCase (jsTrim (" 123e4567-e89b-12d3-a456-426614174000 "))) :=
  ⟨by decide,
    (C9_uuid_exact_match_short_circuit (" 123e4567-e89b-12d3-a456-426614174000 ")
      ["A320"] [] [] ⟨"123E4567-E89B-12D3-A456-426614174000", none, "t", "d",
        "au", "A320", "cat", "ty", "u", "th", .approved, 0, 0, 0, 0, 0⟩ (by decide)).1⟩

/-! View Composer: pack sorting -/

inductive SortCategory
  | relevance
  | upload_date
  | update_date
  | votes
  | download_count
deriving DecidableEq, Repr

inductive SortDirection
  | asc
  | desc
deriving DecidableEq, Repr

def calculatePackRelevance (pack : Pack) (term : String) : Int :=
  if term = "" then 0
  else
    (if includesStr (toLowerCase pack.title) (toLowerCase term) then
      (if toLowerCase pack.title = toLowerCase term then 100 else 50) else 0) +
    (if includesStr (toLowerCase pack.author) (toLowerCase term) then 30 else 0) +
    (if includesStr (toLowerCase pack.description) (toLowerCase term) then 10 else 0)

/-- The sortedPacks comparator (BrowseTextures.tsx lines 482-501).  The
download_count case sorts packs by upvotes because pack rows carry no
download_count field. -/
def packCompare (sortCategory : SortCategory) (sortDirection : SortDirection)
    (searchTerm : String) (a b : Pack) : Int :=
  match sortCategory with
  | .relevance => calculatePackRelevance b searchTerm - calculatePackRelevance a searchTerm
  | .upload_date =>
    if sortDirection = .desc then (b.created_at : Int) - a.created_at
    else (a.created_at : Int) - b.created_at
  | .update_date =>
    if sortDirection = .desc then (b.updated_at : Int) - a.updated_at
    else (a.updated_at : Int) - b.updated_at
  | .votes =>
    if sortDirection = .desc then (b.upvotes - b.downvotes) - (a.upvotes - a.downvotes)
    else (a.upvotes - a.downvotes) - (b.upvotes - b.downvotes)
  | .download_count =>
    if sortDirection = .desc then b.upvotes - a.upvotes
    else a.upvotes - b.upvotes

/-- C10: under the download_count sort category the pack comparator is the
upvotes difference in the chosen direction, and its value depends on the
two packs only through their upvotes fields. -/
theorem C10_pack_download_sort_is_upvotes (dir : SortDirection)
    (searchTerm : String) (a b : Pack) :
    packCompare .download_count dir searchTerm a b =
      (if dir = .desc then b.upvotes - a.upvotes else a.upvotes - b.upvotes) ∧
    (∀ a2 b2 : Pack, a2.upvotes = a.upvotes → b2.upvotes = b.upvotes →
        packCompare .download_count dir searchTerm a2 b2 =
          packCompare .download_count dir searchTerm a b) := by
  refine ⟨rfl, ?_⟩
  intro a2 b2 ha hb
  simp [packCompare, ha, hb]

theorem C10_witness :
    packCompare .download_count .desc ("")
        (⟨"p3", none, "x", "y", "z", "w", .approved, 7, 2, 5, 6⟩ : Pack)
        (⟨"p4", none, "q", "r", "s", "v", .approved, 3, 9, 8, 9⟩ : Pack) =
      packCompare .download_count .desc ("")
        (⟨"p1", none, "a", "b", "c", "d", .approved, 7, 0, 1, 2⟩ : Pack)
        (⟨"p2", none, "e", "f", "g", "h", .approved, 3, 4, 3, 4⟩ : Pack) :=
  (C10_pack_download_sort_is_upvotes .desc ("")
      ⟨"p1", none, "a", "b", "c", "d", .approved, 7, 0, 1, 2⟩
      ⟨"p2", none, "e", "f", "g", "h", .approved, 3, 4, 3, 4⟩).2
    ⟨"p3", none, "x", "y", "z", "w", .approved, 7, 2, 5, 6⟩
    ⟨"p4", none, "q", "r", "s", "v", .approved, 3, 9, 8, 9⟩ rfl rfl

end SOF
